import Mathlib

/-!
Verification development for the color-reconciliation pipeline of
palette-webpack-plugin (`src/index.js`).

The pipeline is embedded shallowly:

* `ColorEntry` models the `{name, slug, color}` objects.
* `ParsedColor` models the result of the external color parser: the RGB
  triple returned by `d3Color` together with the HSV triple returned by
  `d3Hsv` for the same string.  The parser itself (`d3-color` / `d3-hsv`,
  an external library dependency, not part of this repository) is kept
  abstract: every theorem quantifies over a `ParseFn`, and witnesses
  instantiate it with `demoParse`, a finite table that agrees with d3 on
  the strings it mentions.  Numeric components are modelled as `ℚ`;
  JavaScript float literals `1.3` and `8.5` are taken at their decimal
  face value `13/10` and `17/2`, as the specification does.
* `build` models `PaletteWebpackPlugin.build`.  JavaScript faults
  (the `TypeError` raised when `isGrayscale` destructures a `null`
  parse) are made explicit: `isGrayscale` returns an `Option Bool`
  whose `none` is the fault, and `build` returns `none` if the
  grayscale test would fault on any entry it is applied to.
* `resolveBase` / `tailwindEntries` model the `tailwind()` method minus
  its I/O glue (config loading), `transform` and `title` model the
  methods of the same names.  The lodash string helpers
  (`_.startCase`, `_.camelCase`, `_.trim`) and the JavaScript object
  key-enumeration order are modelled for ASCII data, which covers all
  color names and shade keys the plugin handles.
-/

/-- Entry of the palette: the `{ name, slug, color }` objects built by
`transform` and consumed by `build`.  `name` is the dedup key. -/
structure ColorEntry where
  name : String
  slug : String
  color : String
deriving DecidableEq, Repr

/-- Result of a successful parse of a color string: the RGB components
(as returned by `d3Color`) and the HSV components (as returned by
`d3Hsv` on the same string). -/
structure ParsedColor where
  r : ℚ
  g : ℚ
  b : ℚ
  h : ℚ
  s : ℚ
  v : ℚ
deriving DecidableEq, Repr

/-- Abstract color parser: `none` models `d3Color` returning `null`. -/
abbrev ParseFn := String → Option ParsedColor

/-! ### Ordinal string comparison

JavaScript compares strings by code units; `_.sortBy(…, 'name')` sorts
ascending by that order.  We model it by lexicographic comparison of the
code points of the characters (identical on the data appearing here).
The comparison is implemented as a boolean function so that it reduces
inside the kernel. -/

/-- Lexicographic less-or-equal on lists of characters, by code point. -/
def charListLe : List Char → List Char → Bool
  | [], _ => true
  | _ :: _, [] => false
  | a :: as, b :: bs =>
    if a = b then charListLe as bs else decide (a.toNat < b.toNat)

/-- Ordinal less-or-equal on strings. -/
def strLe (a b : String) : Prop := charListLe a.data b.data = true

instance : DecidableRel strLe := fun a b =>
  inferInstanceAs (Decidable (charListLe a.data b.data = true))

/-- Comparison of palette entries by `name`, as `_.sortBy(…, 'name')` does. -/
def nameLe (a b : ColorEntry) : Prop := strLe a.name b.name

instance : DecidableRel nameLe := fun a b => inferInstanceAs (Decidable (strLe a.name b.name))

/-- Stable ascending sort by `name`: models `_.sortBy(collection, 'name')`. -/
def sortByName (l : List ColorEntry) : List ColorEntry := List.insertionSort nameLe l

/-! ### The non-standard-notation pattern

`/^(?:rgb|hsl)a?\(.+?\)$/i` from `build`: the (lowercased) string must
start with `rgb` or `hsl`, an optional `a` and an opening parenthesis,
and its final character must be a closing parenthesis with at least one
character in between, none of which is a JavaScript line terminator
(`.` does not match those, and `$` anchors at the end of the input). -/

/-- Characters that JavaScript regex `.` does not match. -/
def isLineTerminator (c : Char) : Bool :=
  c = '\n' || c = '\r' || c = ' ' || c = ' '

/-- Strip a leading `rgb` or `hsl` from a lowercased character list. -/
def dropCssHead : List Char → Option (List Char)
  | 'r' :: 'g' :: 'b' :: rest => some rest
  | 'h' :: 's' :: 'l' :: rest => some rest
  | _ => none

/-- After the opening parenthesis: the rest must be a non-empty body
followed by a final closing parenthesis, with no line terminator in the
body (this is `.+?\)$` anchored at the end of the string). -/
def cssBody (l : List Char) : Bool :=
  match l.reverse with
  | ')' :: rest => !rest.isEmpty && rest.all (fun c => !isLineTerminator c)
  | _ => false

/-- Case-insensitive test for the textual shape of an `rgb()/rgba()/hsl()/hsla()`
call, modelling the regex `/^(?:rgb|hsl)a?\(.+?\)$/i` in `build`. -/
def looksLikeCssCall (s : String) : Bool :=
  match dropCssHead (s.data.map Char.toLower) with
  | none => false
  | some rest =>
    match (match rest with | 'a' :: r => r | r => r) with
    | '(' :: body => cssBody body
    | _ => false

/-! ### Grayscale classification -/

/-- The method `isGrayscale(color)`: destructures `d3Color(color)` and
tests `r === g && r === b`.  A failed parse (`d3Color` returning `null`)
makes the destructuring throw; the fault is modelled as `none`. -/
def isGrayscale (parse : ParseFn) (color : String) : Option Bool :=
  (parse color).map (fun c => decide (c.r = c.g ∧ c.r = c.b))

/-- The method `maybeGrayscale(color)`: destructures `d3Hsv(color)` and
tests `v < 1.3 / (1 + 8.5 * s)`.  On an unparsable string `d3Hsv`
yields `NaN` components and the comparison is false, so no fault occurs
and the result is `false`. -/
def maybeGrayscale (parse : ParseFn) (color : String) : Bool :=
  match parse color with
  | some c => decide (c.v < 13/10 / (1 + 17/2 * c.s))
  | none => false

/-- The predicate `isGrayscale(color) || maybeGrayscale(color)` used by
`build`, with the possible fault of `isGrayscale` propagated. -/
def grayPred (parse : ParseFn) (color : String) : Option Bool :=
  match isGrayscale parse color with
  | none => none
  | some b => some (b || maybeGrayscale parse color)

/-! ### Deduplication by name

`_.uniqBy(_.union(...objects), 'name')` keeps the first occurrence of
each `name` (`_.union` concatenates the argument arrays; it can only
drop an element that is literally the same object reference as an
earlier one, which never changes the result of the subsequent
`uniqBy`). -/

/-- Keep each entry whose `name` has not been seen before. -/
def uniqByNameAux (seen : List String) : List ColorEntry → List ColorEntry
  | [] => []
  | e :: rest =>
    if e.name ∈ seen then uniqByNameAux seen rest
    else e :: uniqByNameAux (e.name :: seen) rest

/-- Deduplicate a list of entries by `name`, keeping first occurrences. -/
def uniqByName (l : List ColorEntry) : List ColorEntry := uniqByNameAux [] l

/-! ### The build pipeline

Intermediate collections of `build`, named after the local variables of
the source.  `build(...objects)` is always called with the two source
lists, so the embedding takes `primary` and `secondary` directly. -/

/-- The deduplicated concatenation `_.uniqBy(_.union(primary, secondary), 'name')`. -/
def collectionOf (primary secondary : List ColorEntry) : List ColorEntry :=
  uniqByName (primary ++ secondary)

/-- First partition: entries whose color string parses (`!!d3Color(value.color)`). -/
def colorsOf (parse : ParseFn) (primary secondary : List ColorEntry) : List ColorEntry :=
  (collectionOf primary secondary).filter (fun v => (parse v.color).isSome)

/-- First partition, complement: entries whose color string does not parse. -/
def maybeColorsOf (parse : ParseFn) (primary secondary : List ColorEntry) : List ColorEntry :=
  (collectionOf primary secondary).filter (fun v => !(parse v.color).isSome)

/-- Second partition: unparsable entries matching the `rgb()/hsl()` pattern. -/
def falsePositivesOf (parse : ParseFn) (primary secondary : List ColorEntry) : List ColorEntry :=
  (maybeColorsOf parse primary secondary).filter (fun v => looksLikeCssCall v.color)

/-- Second partition, complement: unparsable entries not matching the pattern. -/
def notColorsOf (parse : ParseFn) (primary secondary : List ColorEntry) : List ColorEntry :=
  (maybeColorsOf parse primary secondary).filter (fun v => !looksLikeCssCall v.color)

/-- Third partition: parsable entries classified grayscale. -/
def grayscaleOf (parse : ParseFn) (primary secondary : List ColorEntry) : List ColorEntry :=
  (colorsOf parse primary secondary).filter (fun v => (grayPred parse v.color).getD false)

/-- Third partition, complement: parsable entries that are not grayscale. -/
def notGrayscaleOf (parse : ParseFn) (primary secondary : List ColorEntry) : List ColorEntry :=
  (colorsOf parse primary secondary).filter (fun v => !((grayPred parse v.color).getD false))

/-- The method `build`: dedup, partition three times, then return the
non-grayscale entries (chromatic, pattern-matching and unparsable,
concatenated) sorted by name, followed by the grayscale entries sorted
by name.  The result is `none` exactly when the grayscale predicate
would fault on some entry of the first partition (which `build_eq_some`
shows never happens). -/
def build (parse : ParseFn) (primary secondary : List ColorEntry) : Option (List ColorEntry) :=
  if (colorsOf parse primary secondary).all (fun v => (grayPred parse v.color).isSome) then
    some (sortByName (notGrayscaleOf parse primary secondary
            ++ falsePositivesOf parse primary secondary
            ++ notColorsOf parse primary secondary)
          ++ sortByName (grayscaleOf parse primary secondary))
  else
    none

/-! ### The Tailwind shade table and selection policy

`this.tailwind` after `_.get(config, 'theme.colors', {})` is an object
mapping base color names to either a plain color string or a nested
object from shade key to color string; both levels are modelled as
association lists in insertion order.  The option `tailwind.shades` is
dynamically shape-checked by the source (`false`, `true`, an array of
shade keys, or an object mapping shade keys to labels); the four shapes
become the four constructors of `ShadePolicy`. -/

/-- Value of one base color: a plain string or a nested shade mapping. -/
inductive ShadeValue where
  | plain (color : String)
  | shades (m : List (String × String))
deriving DecidableEq, Repr

/-- The `theme.colors` table, in insertion order. -/
abbrev ShadeTable := List (String × ShadeValue)

/-- Shape of the `tailwind.shades` option: `falsy` is `false`, `truthy`
is `true`, `list` is an array of shade keys, `labels` is an object
mapping shade keys to display labels. -/
inductive ShadePolicy where
  | falsy
  | truthy
  | list (keys : List String)
  | labels (m : List (String × String))
deriving DecidableEq, Repr

/-- The options consumed by the shade resolver: `options.blacklist` and
`options.tailwind.shades`. -/
structure TwOptions where
  blacklist : List String
  shades : ShadePolicy
deriving Repr

/-- Truthiness of the `shades` option: `false` is falsy, everything
else (including an empty array or object) is truthy. -/
def policyTruthy : ShadePolicy → Bool
  | .falsy => false
  | _ => true

/-- The check `_.isObject(shades)` of `title`: arrays and objects are
lodash objects, booleans are not. -/
def policyIsObject : ShadePolicy → Bool
  | .list _ => true
  | .labels _ => true
  | _ => false

/-! ### ASCII model of the lodash string helpers -/

/-- Lowercase ASCII letter test. -/
def isLowerC (c : Char) : Bool := 'a' ≤ c && c ≤ 'z'

/-- Uppercase ASCII letter test. -/
def isUpperC (c : Char) : Bool := 'A' ≤ c && c ≤ 'Z'

/-- ASCII digit test. -/
def isDigitC (c : Char) : Bool := '0' ≤ c && c ≤ '9'

/-- Word splitting as `_.words` performs it on ASCII data: maximal runs
of digits and of letters, with a new word starting at a lower-to-upper
boundary, at a letter/digit boundary, and before the last of several
uppercase letters followed by a lowercase one; every other character is
a separator.  The fuel argument strictly exceeds the input length. -/
def splitWordsAux : Nat → List Char → List (List Char)
  | 0, _ => []
  | _ + 1, [] => []
  | fuel + 1, c :: cs =>
    if isDigitC c then
      (c :: cs.takeWhile isDigitC) :: splitWordsAux fuel (cs.dropWhile isDigitC)
    else if isLowerC c then
      (c :: cs.takeWhile isLowerC) :: splitWordsAux fuel (cs.dropWhile isLowerC)
    else if isUpperC c then
      match cs.takeWhile isUpperC, cs.dropWhile isUpperC with
      | [], rest =>
        (c :: rest.takeWhile isLowerC) :: splitWordsAux fuel (rest.dropWhile isLowerC)
      | u :: us, rest =>
        if isLowerC (rest.headD ' ') then
          (c :: (u :: us).dropLast) :: splitWordsAux fuel ((u :: us).getLastD 'A' :: rest)
        else
          (c :: u :: us) :: splitWordsAux fuel rest
    else
      splitWordsAux fuel cs

/-- Split a string into lodash words. -/
def splitWords (s : String) : List (List Char) := splitWordsAux (s.data.length + 1) s.data

/-- Capitalize a word: first character uppercased, the rest lowercased
(lodash `capitalize`). -/
def capitalizeW (w : List Char) : List Char :=
  match w.map Char.toLower with
  | [] => []
  | c :: cs => Char.toUpper c :: cs

/-- Uppercase only the first character (lodash `upperFirst`). -/
def upperFirstW (w : List Char) : List Char :=
  match w with
  | [] => []
  | c :: cs => Char.toUpper c :: cs

/-- The lodash `_.camelCase`: first word lowercased, the following
words capitalized, all joined. -/
def camelCase (s : String) : String :=
  String.mk
    (match splitWords s with
     | [] => []
     | w :: ws => w.map Char.toLower ++ (ws.map capitalizeW).flatten)

/-- The lodash `_.startCase`: words with their first letter uppercased,
joined by single spaces. -/
def startCase (s : String) : String :=
  String.mk (List.intercalate [' '] ((splitWords s).map upperFirstW))

/-- The composition `_.startCase(_.camelCase(value))` that `title`
applies to its `value` argument. -/
def titleBase (s : String) : String := startCase (camelCase s)

/-- The lodash `_.trim`: strip whitespace from both ends. -/
def trimStr (s : String) : String :=
  String.mk (((s.data.dropWhile Char.isWhitespace).reverse.dropWhile Char.isWhitespace).reverse)

/-- ASCII model of `String.prototype.toLowerCase`. -/
def toLowerStr (s : String) : String := String.mk (s.data.map Char.toLower)

/-- Numeric value of a digit string, used for array indexing. -/
def digitsVal (s : String) : Nat :=
  s.data.foldl (fun n c => n * 10 + (c.toNat - 48)) 0

/-- Canonical array-index test (lodash `isIndex` shape): a canonical
decimal numeral below the maximal array length `2^32 - 1`. -/
def isArrayIndexKey (s : String) : Bool :=
  match s.data with
  | [] => false
  | c :: cs =>
    (c :: cs).all isDigitC && (decide (c ≠ '0') || cs.isEmpty) && decide (digitsVal s < 4294967295)

/-- The check `_.has(shades, description)`: for the array policy this
is element access by array index (a key such as `"500"` is only "in"
the array when it denotes a position below its length), for the object
policy it is key membership, and `false` for the boolean shapes. -/
def policyHas : ShadePolicy → String → Bool
  | .list keys, d => isArrayIndexKey d && decide (digitsVal d < keys.length)
  | .labels m, d => m.any (fun p => p.1 = d)
  | _, _ => false

/-- The access `shades[description]` paired with `policyHas`. -/
def policyGet : ShadePolicy → String → String
  | .list keys, d => keys.getD (digitsVal d) ""
  | .labels m, d => (((m.find? (fun p => p.1 = d)).map Prod.snd).getD (""))
  | _, _ => ""

/-- The method `title(value, description?)`.  The first branch renders
a custom label from the label-mapping policy; otherwise a non-empty
description is rendered as a parenthetical via a recursive `title` call
with no description. -/
def title (policy : ShadePolicy) (value : String) : Option String → String
  | none => titleBase value
  | some d =>
    if d = "" then titleBase value
    else if policyIsObject policy && policyHas policy d then
      trimStr (policyGet policy d ++ " " ++ titleBase value)
    else
      titleBase value ++ " (" ++ titleBase d ++ ")"

/-! ### JavaScript object key enumeration

`Object.keys` lists array-index-like keys first in ascending numeric
order, then the remaining string keys in insertion order. -/

/-- Numeric comparison of array-index keys. -/
def natKeyLe (a b : String) : Prop := digitsVal a ≤ digitsVal b

instance : DecidableRel natKeyLe := fun a b =>
  inferInstanceAs (Decidable (digitsVal a ≤ digitsVal b))

/-- Key enumeration order of a JavaScript object whose keys, in
insertion order, are `ks`. -/
def objKeys (ks : List String) : List String :=
  List.insertionSort natKeyLe (ks.filter isArrayIndexKey)
    ++ ks.filter (fun k => !isArrayIndexKey k)

/-! ### The shade resolver -/

/-- Lookup of `this.tailwind[key]`. -/
def tableLookup (t : ShadeTable) (key : String) : Option ShadeValue :=
  (t.find? (fun p => p.1 = key)).map Prod.snd

/-- Lookup of `this.tailwind[key][value]` inside a shade mapping.  The
callers only pass keys that are present; an absent key would be the
JavaScript `undefined`, modelled by the empty placeholder. -/
def shadeLookup (m : List (String × String)) (k : String) : String :=
  (((m.find? (fun p => p.1 = k)).map Prod.snd).getD (""))

/-- Presence test `hasOwnProperty` on a shade mapping. -/
def hasShade (m : List (String × String)) (k : String) : Bool :=
  m.any (fun p => p.1 = k)

/-- The method `transform(key, value)` for the Tailwind source (the
`isSass` branch is the Sass adapter's and takes the color directly).
With no `value` the color is the plain string `this.tailwind[key]`; a
`value` equal to `default` case-insensitively keeps the bare `key` as
slug and a plain title; any other `value` appends the shade to the slug
and embeds it in the name exactly when the `shades` option is truthy. -/
def transform (o : TwOptions) (t : ShadeTable) (key : String) : Option String → ColorEntry
  | none =>
    { name := title o.shades key none
      slug := key
      color := match tableLookup t key with
               | some (.plain c) => c
               | _ => "" }
  | some v =>
    if toLowerStr v = "default" then
      { name := title o.shades key none
        slug := key
        color := match tableLookup t key with
                 | some (.shades m) => shadeLookup m v
                 | _ => "" }
    else
      { name := if policyTruthy o.shades then title o.shades key (some v)
                else title o.shades key none
        slug := key ++ "-" ++ v
        color := match tableLookup t key with
                 | some (.shades m) => shadeLookup m v
                 | _ => "" }

/-- Which shade keys of the mapping `m` the `tailwind()` branch chain
selects: with a falsy `shades` option, `"500"` alone when present and
otherwise every key (the array/object tests both fail on `false`, so
control falls through to the final all-keys branch); with an array or
object, the enumerated keys filtered by membership; with `true`, every
key. -/
def selectedShadeKeys (o : TwOptions) (m : List (String × String)) : List String :=
  match o.shades with
  | .falsy =>
    if hasShade m ("500") then ["500"]
    else objKeys (m.map Prod.fst)
  | .list ks => (objKeys (m.map Prod.fst)).filter (fun v => ks.contains v)
  | .labels lm => (objKeys (m.map Prod.fst)).filter (fun v => hasShade lm v)
  | .truthy => objKeys (m.map Prod.fst)

/-- Contribution of one base color `key` to the palette: nothing when
the key is empty or blacklisted, one entry for a plain string value,
and one entry per selected shade key for a shade mapping. -/
def resolveBase (o : TwOptions) (t : ShadeTable) (key : String) : List ColorEntry :=
  if key = "" || o.blacklist.contains key then []
  else
    match tableLookup t key with
    | some (.plain _) => [transform o t key none]
    | some (.shades m) => (selectedShadeKeys o m).map (fun v => transform o t key (some v))
    | none => []

/-- The method `tailwind()` minus its I/O glue: flat-map the resolver
over the enumerated base color keys (the `filter(value => !!value)`
that removes the `undefined` of blacklisted keys is already folded into
the empty contribution of `resolveBase`). -/
def tailwindEntries (o : TwOptions) (t : ShadeTable) : List ColorEntry :=
  (objKeys (t.map Prod.fst)).flatMap (resolveBase o t)

/-! ### A concrete parser for witnesses

A finite parse table agreeing with `d3Color`/`d3Hsv` on the strings it
mentions; every other string is rejected, as d3 rejects them. -/

/-- Finite concrete instance of the abstract parser, used by witnesses. -/
def demoParse : ParseFn
  | "#f00" => some ⟨255, 0, 0, 0, 1, 1⟩
  | "#e00" => some ⟨238, 0, 0, 0, 1, 238/255⟩
  | "#111" => some ⟨17, 17, 17, 0, 0, 17/255⟩
  | _ => none

/-! ### General lemmas about the ordinal comparison -/

theorem char_toNat_inj {a b : Char} (h : a.toNat = b.toNat) : a = b :=
  Char.eq_of_val_eq (UInt32.toNat.inj h)

theorem charListLe_total : ∀ as bs, charListLe as bs = true ∨ charListLe bs as = true := by
  intro as
  induction as with
  | nil => intro bs; left; rfl
  | cons a as ih =>
    intro bs
    cases bs with
    | nil => right; rfl
    | cons b bs =>
      by_cases hab : a = b
      · subst hab
        rcases ih bs with h | h
        · left; simpa [charListLe] using h
        · right; simpa [charListLe] using h
      · have hn : a.toNat ≠ b.toNat := fun hc => hab (char_toNat_inj hc)
        rcases Nat.lt_or_ge a.toNat b.toNat with hlt | hge
        · left
          simp only [charListLe, if_neg hab]
          exact decide_eq_true hlt
        · right
          have hba : ¬ b = a := fun hc => hab hc.symm
          have hlt : b.toNat < a.toNat := lt_of_le_of_ne hge (fun hc => hn hc.symm)
          simp only [charListLe, if_neg hba]
          exact decide_eq_true hlt

theorem charListLe_trans :
    ∀ as bs cs, charListLe as bs = true → charListLe bs cs = true → charListLe as cs = true := by
  intro as
  induction as with
  | nil => intro bs cs _ _; rfl
  | cons a as ih =>
    intro bs cs h1 h2
    cases bs with
    | nil => simp [charListLe] at h1
    | cons b bs =>
      cases cs with
      | nil => simp [charListLe] at h2
      | cons c cs =>
        by_cases hab : a = b
        · subst hab
          by_cases hac : a = c
          · subst hac
            simp only [charListLe, if_pos rfl] at h1 h2 ⊢
            exact ih bs cs h1 h2
          · simp only [charListLe, if_pos rfl] at h1
            simp only [charListLe, if_neg hac] at h2 ⊢
            exact h2
        · by_cases hbc : b = c
          · subst hbc
            simp only [charListLe, if_neg hab] at h1 ⊢
            exact h1
          · simp only [charListLe, if_neg hab] at h1
            simp only [charListLe, if_neg hbc] at h2
            have h1' : a.toNat < b.toNat := of_decide_eq_true h1
            have h2' : b.toNat < c.toNat := of_decide_eq_true h2
            have hac : a ≠ c := by
              intro hc; subst hc
              exact absurd (Nat.lt_trans h1' h2') (lt_irrefl _)
            simp only [charListLe, if_neg hac]
            exact decide_eq_true (Nat.lt_trans h1' h2')

instance : IsTotal ColorEntry nameLe :=
  ⟨fun a b => charListLe_total a.name.data b.name.data⟩

instance : IsTrans ColorEntry nameLe :=
  ⟨fun _ _ _ h h' => charListLe_trans _ _ _ h h'⟩

theorem sortByName_sorted (l : List ColorEntry) : List.Sorted nameLe (sortByName l) :=
  List.sorted_insertionSort nameLe l

theorem sortByName_perm (l : List ColorEntry) : List.Perm (sortByName l) l :=
  List.perm_insertionSort nameLe l

/-! ### General lemmas about deduplication -/

theorem uniqByNameAux_subset {x : ColorEntry} :
    ∀ (l : List ColorEntry) (seen : List String), x ∈ uniqByNameAux seen l → x ∈ l := by
  intro l
  induction l with
  | nil => intro seen h; simp [uniqByNameAux] at h
  | cons e rest ih =>
    intro seen h
    by_cases hs : e.name ∈ seen
    · rw [uniqByNameAux, if_pos hs] at h
      exact List.mem_cons_of_mem _ (ih _ h)
    · rw [uniqByNameAux, if_neg hs] at h
      rcases List.mem_cons.mp h with hx | hx
      · exact hx ▸ List.mem_cons_self _ _
      · exact List.mem_cons_of_mem _ (ih _ hx)

theorem uniqByNameAux_nodup :
    ∀ (l : List ColorEntry) (seen : List String),
      ((uniqByNameAux seen l).map ColorEntry.name).Nodup
      ∧ ∀ x ∈ uniqByNameAux seen l, x.name ∉ seen := by
  intro l
  induction l with
  | nil =>
    intro seen
    exact ⟨List.nodup_nil, fun x hx => absurd hx (List.not_mem_nil x)⟩
  | cons e rest ih =>
    intro seen
    by_cases hs : e.name ∈ seen
    · rw [uniqByNameAux, if_pos hs]
      exact ih seen
    · rw [uniqByNameAux, if_neg hs]
      obtain ⟨ihn, ihs⟩ := ih (e.name :: seen)
      refine ⟨?_, ?_⟩
      · rw [List.map_cons, List.nodup_cons]
        refine ⟨?_, ihn⟩
        intro hmem
        rcases List.mem_map.mp hmem with ⟨y, hy, hyn⟩
        exact (ihs y hy) (hyn ▸ List.mem_cons_self _ _)
      · intro x hx
        rcases List.mem_cons.mp hx with hx | hx
        · exact hx ▸ hs
        · exact fun hc => (ihs x hx) (List.mem_cons_of_mem _ hc)

theorem uniqByName_names_nodup (l : List ColorEntry) :
    ((uniqByName l).map ColorEntry.name).Nodup :=
  (uniqByNameAux_nodup l []).1

/-! ### General lemmas about the build pipeline -/

theorem grayPred_eq_of_parse {parse : ParseFn} {c : String} {pc : ParsedColor}
    (h : parse c = some pc) :
    grayPred parse c
      = some (decide (pc.r = pc.g ∧ pc.r = pc.b) || decide (pc.v < 13/10 / (1 + 17/2 * pc.s))) := by
  simp [grayPred, isGrayscale, maybeGrayscale, h]

theorem grayPred_isSome {parse : ParseFn} {c : String}
    (h : (parse c).isSome = true) : (grayPred parse c).isSome = true := by
  rcases Option.isSome_iff_exists.mp h with ⟨pc, hpc⟩
  rw [grayPred_eq_of_parse hpc]
  rfl

/-- The guard of `build` always holds: the grayscale predicate is only
applied to entries of the first partition, whose colors parse. -/
theorem build_guard (parse : ParseFn) (primary secondary : List ColorEntry) :
    (colorsOf parse primary secondary).all (fun v => (grayPred parse v.color).isSome) = true := by
  rw [List.all_eq_true]
  intro v hv
  have hmem := List.mem_filter.mp hv
  exact grayPred_isSome hmem.2

theorem build_eq_some (parse : ParseFn) (primary secondary : List ColorEntry) :
    build parse primary secondary
      = some (sortByName (notGrayscaleOf parse primary secondary
                ++ falsePositivesOf parse primary secondary
                ++ notColorsOf parse primary secondary)
              ++ sortByName (grayscaleOf parse primary secondary)) := by
  rw [build, if_pos (build_guard parse primary secondary)]

theorem buckets_perm (parse : ParseFn) (primary secondary : List ColorEntry) :
    List.Perm
      ((notGrayscaleOf parse primary secondary
          ++ falsePositivesOf parse primary secondary
          ++ notColorsOf parse primary secondary)
        ++ grayscaleOf parse primary secondary)
      (collectionOf primary secondary) := by
  have h1 : List.Perm
      (grayscaleOf parse primary secondary ++ notGrayscaleOf parse primary secondary)
      (colorsOf parse primary secondary) :=
    List.filter_append_perm _ _
  have h2 : List.Perm
      (falsePositivesOf parse primary secondary ++ notColorsOf parse primary secondary)
      (maybeColorsOf parse primary secondary) :=
    List.filter_append_perm _ _
  have h3 : List.Perm
      (colorsOf parse primary secondary ++ maybeColorsOf parse primary secondary)
      (collectionOf primary secondary) :=
    List.filter_append_perm _ _
  have step1 : List.Perm
      ((notGrayscaleOf parse primary secondary
          ++ falsePositivesOf parse primary secondary
          ++ notColorsOf parse primary secondary)
        ++ grayscaleOf parse primary secondary)
      ((grayscaleOf parse primary secondary ++ notGrayscaleOf parse primary secondary)
        ++ (falsePositivesOf parse primary secondary ++ notColorsOf parse primary secondary)) := by
    have hcomm : List.Perm
        ((notGrayscaleOf parse primary secondary
            ++ falsePositivesOf parse primary secondary
            ++ notColorsOf parse primary secondary)
          ++ grayscaleOf parse primary secondary)
        (grayscaleOf parse primary secondary
          ++ (notGrayscaleOf parse primary secondary
            ++ falsePositivesOf parse primary secondary
            ++ notColorsOf parse primary secondary)) := List.perm_append_comm
    have heq :
        grayscaleOf parse primary secondary
          ++ (notGrayscaleOf parse primary secondary
            ++ falsePositivesOf parse primary secondary
            ++ notColorsOf parse primary secondary)
        = (grayscaleOf parse primary secondary ++ notGrayscaleOf parse primary secondary)
          ++ (falsePositivesOf parse primary secondary ++ notColorsOf parse primary secondary) := by
      simp only [List.append_assoc]
    exact heq ▸ hcomm
  exact step1.trans ((h1.append h2).trans h3)

theorem build_out_perm (parse : ParseFn) (primary secondary : List ColorEntry) :
    List.Perm
      (sortByName (notGrayscaleOf parse primary secondary
          ++ falsePositivesOf parse primary secondary
          ++ notColorsOf parse primary secondary)
        ++ sortByName (grayscaleOf parse primary secondary))
      (collectionOf primary secondary) :=
  ((sortByName_perm _).append (sortByName_perm _)).trans (buckets_perm parse primary secondary)

/-! ### Concrete evaluations of the grayscale predicate

The rational arithmetic of the perceptual curve is settled by
`norm_num`; everything else in the pipeline computes by reduction. -/

theorem grayPred_f00 : grayPred demoParse ("#f00") = some false := by
  rw [grayPred_eq_of_parse (rfl : demoParse ("#f00") = some ⟨255, 0, 0, 0, 1, 1⟩)]
  have h1 : ¬ ((255 : ℚ) = 0 ∧ (255 : ℚ) = 0) := by norm_num
  have h2 : ¬ ((1 : ℚ) < 13/10 / (1 + 17/2 * 1)) := by norm_num
  simp [h1, h2]
  norm_num

theorem grayPred_e00 : grayPred demoParse ("#e00") = some false := by
  rw [grayPred_eq_of_parse (rfl : demoParse ("#e00") = some ⟨238, 0, 0, 0, 1, 238/255⟩)]
  have h1 : ¬ ((238 : ℚ) = 0 ∧ (238 : ℚ) = 0) := by norm_num
  have h2 : ¬ ((238/255 : ℚ) < 13/10 / (1 + 17/2 * 1)) := by norm_num
  simp [h1, h2]
  norm_num

theorem grayPred_111 : grayPred demoParse ("#111") = some true := by
  rw [grayPred_eq_of_parse (rfl : demoParse ("#111") = some ⟨17, 17, 17, 0, 0, 17/255⟩)]
  have h1 : (17 : ℚ) = 17 ∧ (17 : ℚ) = 17 := ⟨rfl, rfl⟩
  simp [h1]

/-! ### Concrete data for witnesses and counterexamples -/

/-- Chromatic entry whose name sorts last. -/
def zebraEntry : ColorEntry := ⟨"Zebra", "zebra", "#f00"⟩

/-- Unparsable entry matching the notation pattern, name sorting first. -/
def alphaEntry : ColorEntry := ⟨"Alpha", "alpha", "rgb(var(--x))"⟩

/-- Exact-gray entry. -/
def blackEntry : ColorEntry := ⟨"Black", "black", "#111"⟩

/-- Red defined by the primary source. -/
def redPrimary : ColorEntry := ⟨"Red", "red", "#f00"⟩

/-- The same name defined by the secondary source. -/
def redSecondary : ColorEntry := ⟨"Red", "red", "#e00"⟩

/-- Default options with the falsy `shades` value. -/
def demoFalsyOptions : TwOptions := ⟨["transparent", "inherit"], ShadePolicy.falsy⟩

/-- Options with the explicit shade list `["500"]`. -/
def demoListOptions : TwOptions := ⟨["transparent", "inherit"], ShadePolicy.list ["500"]⟩

/-- Options with `shades: true` and an empty blacklist. -/
def demoTruthyOptions : TwOptions := ⟨[], ShadePolicy.truthy⟩

/-- A base whose shade mapping lacks the `500` key. -/
def demoNo500Table : ShadeTable := [("blue", ShadeValue.shades [("400", "#00f")])]

/-- The shade table of the shade-expansion test vector. -/
def demoBlueTable : ShadeTable :=
  [("blue", ShadeValue.shades [("500", "#4287f5"), ("900", "#001030")])]

/-- A base with a numbered shade and a `default` shade. -/
def demoDefaultTable : ShadeTable :=
  [("blue", ShadeValue.shades [("50", "#eef"), ("default", "#246")])]

/-! ### Claims about the shade resolver -/

/-- Helper to discharge a boolean if-condition known to be false. -/
theorem not_cond_of_eq_false {b : Bool} (h : b = false) : ¬ (b = true) := by
  intro hc
  rw [h] at hc
  exact Bool.false_ne_true hc

/-- C9: for every base name contained in the blacklist the resolver
emits no entry, regardless of the shade-selection policy and of the
shape of the value stored for that base. -/
theorem C9_blacklist :
    ∀ (o : TwOptions) (t : ShadeTable) (key : String),
      o.blacklist.contains key = true → resolveBase o t key = [] := by
  intro o t key hbl
  rw [resolveBase, if_pos]
  rw [hbl, Bool.or_true]

/-- C9 witness: the default blacklist suppresses `transparent` whatever
its value is. -/
theorem C9_blacklist_witness :
    resolveBase demoFalsyOptions [("transparent", ShadeValue.plain ("transparent"))]
        ("transparent") = [] :=
  C9_blacklist demoFalsyOptions [("transparent", ShadeValue.plain ("transparent"))]
    ("transparent") (by decide)

/-- C8: a selected shade key equal to `default` case-insensitively is
emitted with the plain title of the base as name, the bare base name as
slug (no shade suffix), and the color stored in the shade mapping under
that key. -/
theorem C8_default_shade :
    ∀ (o : TwOptions) (t : ShadeTable) (key k : String) (m : List (String × String)),
      tableLookup t key = some (ShadeValue.shades m) →
      (decide (key = "") || o.blacklist.contains key) = false →
      k ∈ selectedShadeKeys o m →
      toLowerStr k = "default" →
      (transform o t key (some k) = ⟨titleBase key, key, shadeLookup m k⟩
        ∧ transform o t key (some k) ∈ resolveBase o t key) := by
  intro o t key k m hm hbl hk hd
  constructor
  · rw [transform, if_pos hd, hm]
    rfl
  · rw [resolveBase, if_neg (not_cond_of_eq_false hbl), hm]
    exact List.mem_map_of_mem (fun v => transform o t key (some v)) hk

/-- C8 witness: the `default` key of `demoDefaultTable` under the
truthy policy. -/
theorem C8_default_shade_witness :
    transform demoTruthyOptions demoDefaultTable ("blue") (some ("default"))
        = ⟨titleBase ("blue"), "blue", shadeLookup [("50", "#eef"), ("default", "#246")] ("default")⟩
      ∧ transform demoTruthyOptions demoDefaultTable ("blue") (some ("default"))
          ∈ resolveBase demoTruthyOptions demoDefaultTable ("blue") :=
  C8_default_shade demoTruthyOptions demoDefaultTable ("blue") ("default")
    [("50", "#eef"), ("default", "#246")] rfl rfl (by decide) rfl

/-- C2 counterexample: under the falsy shades option, a base whose
shade mapping lacks the key `500` still emits entries — one per shade —
instead of emitting nothing as claimed. -/
theorem C2_counterexample :
    tailwindEntries demoFalsyOptions demoNo500Table = [⟨"Blue", "blue-400", "#00f"⟩]
    ∧ tailwindEntries demoFalsyOptions demoNo500Table ≠ [] := by
  constructor
  · decide
  · decide

/-- C2 (amended): under the falsy shades option the resolver uses key
`500` alone when it is present, and when it is absent it falls through
to the all-shades branch and emits one entry per shade key of the base. -/
theorem C2_single_default_shade :
    ∀ (o : TwOptions) (t : ShadeTable) (key : String) (m : List (String × String)),
      o.shades = ShadePolicy.falsy →
      tableLookup t key = some (ShadeValue.shades m) →
      (decide (key = "") || o.blacklist.contains key) = false →
      resolveBase o t key
        = if hasShade m ("500") then [transform o t key (some ("500"))]
          else (objKeys (m.map Prod.fst)).map (fun v => transform o t key (some v)) := by
  intro o t key m ho hm hbl
  rw [resolveBase, if_neg (not_cond_of_eq_false hbl), hm]
  have hsel : selectedShadeKeys o m
      = if hasShade m ("500") then ["500"] else objKeys (m.map Prod.fst) := by
    unfold selectedShadeKeys
    rw [ho]
  show (selectedShadeKeys o m).map (fun v => transform o t key (some v)) = _
  rw [hsel]
  cases h5 : hasShade m ("500") with
  | true => simp [h5]
  | false => simp [h5]

/-- C2 witness: the amended statement at the concrete no-`500` table. -/
theorem C2_single_default_shade_witness :
    resolveBase demoFalsyOptions demoNo500Table ("blue")
      = if hasShade [("400", "#00f")] ("500")
        then [transform demoFalsyOptions demoNo500Table ("blue") (some ("500"))]
        else (objKeys ([("400", "#00f")].map Prod.fst)).map
          (fun v => transform demoFalsyOptions demoNo500Table ("blue") (some v)) :=
  C2_single_default_shade demoFalsyOptions demoNo500Table ("blue") [("400", "#00f")]
    rfl rfl rfl

/-- C3 counterexample: with the table `{blue: {500, 900}}` and the
explicit list `["500"]` the resolver does not emit the claimed entry
whose name is the bare title `Blue`. -/
theorem C3_counterexample :
    tailwindEntries demoListOptions demoBlueTable ≠ [⟨"Blue", "blue-500", "#4287f5"⟩] := by
  decide

/-- C3 (amended): exactly one entry is emitted, with slug `blue-500`
and color `#4287f5`, but its display name embeds the shade as the
parenthetical `Blue (500)`, because the array policy is truthy and the
array does not act as a label mapping for the key `500`. -/
theorem C3_explicit_list :
    tailwindEntries demoListOptions demoBlueTable = [⟨"Blue (500)", "blue-500", "#4287f5"⟩] := by
  decide

/-! ### Concrete bucket evaluations for the build claims -/

theorem c1cx_colors : colorsOf demoParse [zebraEntry] [alphaEntry] = [zebraEntry] := rfl

theorem c1cx_gray : grayscaleOf demoParse [zebraEntry] [alphaEntry] = [] := by
  rw [grayscaleOf, c1cx_colors]
  simp [zebraEntry, grayPred_f00]

theorem c1cx_notgray : notGrayscaleOf demoParse [zebraEntry] [alphaEntry] = [zebraEntry] := by
  rw [notGrayscaleOf, c1cx_colors]
  simp [zebraEntry, grayPred_f00]

theorem c4_colors1 : colorsOf demoParse [redPrimary] [redSecondary] = [redPrimary] := rfl

theorem c4_gray1 : grayscaleOf demoParse [redPrimary] [redSecondary] = [] := by
  rw [grayscaleOf, c4_colors1]
  simp [redPrimary, grayPred_f00]

theorem c4_notgray1 : notGrayscaleOf demoParse [redPrimary] [redSecondary] = [redPrimary] := by
  rw [notGrayscaleOf, c4_colors1]
  simp [redPrimary, grayPred_f00]

theorem c4_colors2 : colorsOf demoParse [redSecondary] [redPrimary] = [redSecondary] := rfl

theorem c4_gray2 : grayscaleOf demoParse [redSecondary] [redPrimary] = [] := by
  rw [grayscaleOf, c4_colors2]
  simp [redSecondary, grayPred_e00]

theorem c4_notgray2 : notGrayscaleOf demoParse [redSecondary] [redPrimary] = [redSecondary] := by
  rw [notGrayscaleOf, c4_colors2]
  simp [redSecondary, grayPred_e00]

/-! ### Claims about the build pipeline -/

/-- C7: `build` never raises and never silently drops an entry: for
every parser and every pair of input lists it returns a (possibly
empty) output that is exactly a reordering of the name-deduplicated
concatenation of the inputs. -/
theorem C7_build_total :
    ∀ (parse : ParseFn) (primary secondary : List ColorEntry),
      ∃ out, build parse primary secondary = some out
        ∧ List.Perm out (uniqByName (primary ++ secondary)) := by
  intro parse p s
  exact ⟨_, build_eq_some parse p s, build_out_perm parse p s⟩

/-- C1 (amended): the output of `build` is the three non-grayscale
groups (chromatic, non-standard-notation, unparsable) concatenated and
then sorted together ascending by name as a single block, followed by
the grayscale entries sorted ascending by name; each of the two blocks
is sorted, and grayscale stays last, but the three non-grayscale groups
are interleaved by name rather than kept apart. -/
theorem C1_output_order :
    ∀ (parse : ParseFn) (primary secondary : List ColorEntry),
      build parse primary secondary
        = some (sortByName (notGrayscaleOf parse primary secondary
                  ++ falsePositivesOf parse primary secondary
                  ++ notColorsOf parse primary secondary)
                ++ sortByName (grayscaleOf parse primary secondary))
      ∧ List.Sorted nameLe (sortByName (notGrayscaleOf parse primary secondary
                  ++ falsePositivesOf parse primary secondary
                  ++ notColorsOf parse primary secondary))
      ∧ List.Sorted nameLe (sortByName (grayscaleOf parse primary secondary)) := by
  intro parse p s
  exact ⟨build_eq_some parse p s, sortByName_sorted _, sortByName_sorted _⟩

/-- C1 counterexample: a chromatic entry named `Zebra` and a
non-standard-notation entry named `Alpha`; the output sorts them
together by name, so the non-standard-notation entry precedes the
chromatic one, while the claim requires every chromatic entry to come
first. -/
theorem C1_counterexample :
    build demoParse [zebraEntry] [alphaEntry] = some [alphaEntry, zebraEntry]
    ∧ (demoParse zebraEntry.color).isSome = true
    ∧ demoParse alphaEntry.color = none
    ∧ looksLikeCssCall alphaEntry.color = true
    ∧ ¬ strLe zebraEntry.name alphaEntry.name := by
  refine ⟨?_, rfl, rfl, rfl, by decide⟩
  rw [build_eq_some, c1cx_notgray, c1cx_gray]
  decide

/-- C4: `build` deduplicates the concatenation of primary before
secondary by name, keeping the first occurrence, so names are unique in
the output and the first-passed list wins ties; concretely, the red of
the first argument survives in both orders. -/
theorem C4_dedup_priority :
    (∀ (parse : ParseFn) (primary secondary : List ColorEntry),
      ∃ out, build parse primary secondary = some out
        ∧ (out.map ColorEntry.name).Nodup
        ∧ List.Perm out (uniqByName (primary ++ secondary)))
    ∧ build demoParse [redPrimary] [redSecondary] = some [redPrimary]
    ∧ build demoParse [redSecondary] [redPrimary] = some [redSecondary] := by
  refine ⟨?_, ?_, ?_⟩
  · intro parse p s
    refine ⟨_, build_eq_some parse p s, ?_, build_out_perm parse p s⟩
    exact ((build_out_perm parse p s).map ColorEntry.name).nodup_iff.mpr
      (uniqByName_names_nodup _)
  · rw [build_eq_some, c4_notgray1, c4_gray1]
    decide
  · rw [build_eq_some, c4_notgray2, c4_gray2]
    decide

/-- C10: the grayscale checks are only applied to entries of the first
partition, whose color strings parse, so `isGrayscale` never
destructures a failed parse during `build` (and `build` never faults);
applied directly to a string the parser rejects, `isGrayscale` faults
instead of returning false. -/
theorem C10_grayscale_safety :
    (∀ (parse : ParseFn) (c : String), parse c = none → isGrayscale parse c = none)
    ∧ (∀ (parse : ParseFn) (primary secondary : List ColorEntry),
        ∀ v ∈ colorsOf parse primary secondary,
          (isGrayscale parse v.color).isSome = true ∧ (grayPred parse v.color).isSome = true)
    ∧ (∀ (parse : ParseFn) (primary secondary : List ColorEntry),
        (build parse primary secondary).isSome = true) := by
  refine ⟨?_, ?_, ?_⟩
  · intro parse c h
    simp [isGrayscale, h]
  · intro parse p s v hv
    have hps : (parse v.color).isSome = true := (List.mem_filter.mp hv).2
    constructor
    · rcases Option.isSome_iff_exists.mp hps with ⟨pc, hpc⟩
      simp [isGrayscale, hpc]
    · exact grayPred_isSome hps
  · intro parse p s
    rw [build_eq_some]
    rfl

/-- C10 witness: the fault on a rejected string and the safety inside
`build` at concrete inputs. -/
theorem C10_grayscale_safety_witness :
    isGrayscale demoParse ("--brand") = none
    ∧ (isGrayscale demoParse zebraEntry.color).isSome = true
    ∧ (build demoParse [zebraEntry] [alphaEntry]).isSome = true :=
  ⟨C10_grayscale_safety.1 demoParse ("--brand") rfl,
   (C10_grayscale_safety.2.1 demoParse [zebraEntry] [alphaEntry] zebraEntry (by decide)).1,
   C10_grayscale_safety.2.2 demoParse [zebraEntry] [alphaEntry]⟩

/-- C5: an entry whose color string parses is classified grayscale
exactly when the exact check (equal RGB components) or the perceptual
check (`v < 1.3/(1 + 8.5*s)`) passes; moreover at zero saturation every
value at most one passes the perceptual check.  The grayscale bucket is
the one `build` appends after the non-grayscale block. -/
theorem C5_grayscale_iff :
    ∀ (parse : ParseFn) (primary secondary : List ColorEntry) (e : ColorEntry) (pc : ParsedColor),
      parse e.color = some pc →
      ((e ∈ grayscaleOf parse primary secondary
          ↔ e ∈ collectionOf primary secondary
            ∧ ((pc.r = pc.g ∧ pc.r = pc.b) ∨ pc.v < 13/10 / (1 + 17/2 * pc.s)))
        ∧ build parse primary secondary
            = some (sortByName (notGrayscaleOf parse primary secondary
                      ++ falsePositivesOf parse primary secondary
                      ++ notColorsOf parse primary secondary)
                    ++ sortByName (grayscaleOf parse primary secondary))
        ∧ (pc.s = 0 → pc.v ≤ 1 → pc.v < 13/10 / (1 + 17/2 * pc.s))) := by
  intro parse p s e pc hpc
  refine ⟨⟨?_, ?_⟩, build_eq_some parse p s, ?_⟩
  · intro hmem
    obtain ⟨hcolors, hpred⟩ := List.mem_filter.mp hmem
    refine ⟨(List.mem_filter.mp hcolors).1, ?_⟩
    rw [grayPred_eq_of_parse hpc] at hpred
    simpa [Bool.or_eq_true, decide_eq_true_eq] using hpred
  · rintro ⟨hcol, hor⟩
    refine List.mem_filter.mpr ⟨List.mem_filter.mpr ⟨hcol, by simp [hpc]⟩, ?_⟩
    rw [grayPred_eq_of_parse hpc]
    simpa [Bool.or_eq_true, decide_eq_true_eq] using hor
  · intro hs hv
    rw [hs]
    have hc : (13 : ℚ)/10 / (1 + 17/2 * 0) = 13/10 := by norm_num
    rw [hc]
    linarith

/-- C5 witness: the exact gray `#111` at concrete inputs. -/
theorem C5_grayscale_iff_witness :
    (blackEntry ∈ grayscaleOf demoParse [blackEntry] []
        ↔ blackEntry ∈ collectionOf [blackEntry] []
          ∧ (((17 : ℚ) = 17 ∧ (17 : ℚ) = 17) ∨ (17/255 : ℚ) < 13/10 / (1 + 17/2 * 0)))
      ∧ build demoParse [blackEntry] []
          = some (sortByName (notGrayscaleOf demoParse [blackEntry] []
                    ++ falsePositivesOf demoParse [blackEntry] []
                    ++ notColorsOf demoParse [blackEntry] [])
                  ++ sortByName (grayscaleOf demoParse [blackEntry] []))
      ∧ ((0 : ℚ) = 0 → (17/255 : ℚ) ≤ 1 → (17/255 : ℚ) < 13/10 / (1 + 17/2 * 0)) :=
  C5_grayscale_iff demoParse [blackEntry] [] blackEntry ⟨17, 17, 17, 0, 0, 17/255⟩ rfl

/-- C6: an entry whose color the parser rejects but which matches the
notation pattern lands in the false-positives bucket, not in the
unparsable bucket and not in the grayscale bucket, and `build` places
it inside the first (pre-grayscale) block of the output. -/
theorem C6_false_positive_placement :
    ∀ (parse : ParseFn) (primary secondary : List ColorEntry) (e : ColorEntry),
      e ∈ collectionOf primary secondary →
      parse e.color = none →
      looksLikeCssCall e.color = true →
      (e ∈ falsePositivesOf parse primary secondary
        ∧ e ∉ notColorsOf parse primary secondary
        ∧ e ∉ grayscaleOf parse primary secondary
        ∧ build parse primary secondary
            = some (sortByName (notGrayscaleOf parse primary secondary
                      ++ falsePositivesOf parse primary secondary
                      ++ notColorsOf parse primary secondary)
                    ++ sortByName (grayscaleOf parse primary secondary))
        ∧ e ∈ sortByName (notGrayscaleOf parse primary secondary
                  ++ falsePositivesOf parse primary secondary
                  ++ notColorsOf parse primary secondary)) := by
  intro parse p s e hc hn hl
  have hfp : e ∈ falsePositivesOf parse p s :=
    List.mem_filter.mpr ⟨List.mem_filter.mpr ⟨hc, by simp [hn]⟩, hl⟩
  refine ⟨hfp, ?_, ?_, build_eq_some parse p s, ?_⟩
  · intro hmem
    have h2 := (List.mem_filter.mp hmem).2
    rw [hl] at h2
    simp at h2
  · intro hmem
    have h2 := (List.mem_filter.mp (List.mem_filter.mp hmem).1).2
    rw [hn] at h2
    simp at h2
  · refine (sortByName_perm _).mem_iff.mpr ?_
    exact List.mem_append.mpr (Or.inl (List.mem_append.mpr (Or.inr hfp)))

/-- C6 witness: the test vector `rgb(var(--x))` at concrete inputs. -/
theorem C6_false_positive_placement_witness :
    alphaEntry ∈ falsePositivesOf demoParse [alphaEntry] []
      ∧ alphaEntry ∉ notColorsOf demoParse [alphaEntry] []
      ∧ alphaEntry ∉ grayscaleOf demoParse [alphaEntry] []
      ∧ build demoParse [alphaEntry] []
          = some (sortByName (notGrayscaleOf demoParse [alphaEntry] []
                    ++ falsePositivesOf demoParse [alphaEntry] []
                    ++ notColorsOf demoParse [alphaEntry] [])
                  ++ sortByName (grayscaleOf demoParse [alphaEntry] []))
      ∧ alphaEntry ∈ sortByName (notGrayscaleOf demoParse [alphaEntry] []
                ++ falsePositivesOf demoParse [alphaEntry] []
                ++ notColorsOf demoParse [alphaEntry] []) :=
  C6_false_positive_placement demoParse [alphaEntry] [] alphaEntry (by decide) rfl rfl
